import Mathlib

/-!
Shallow embedding of the Kaggle submission watcher (`main.py`) and proofs of
the specification's claims about it.

Modelling conventions:
* A submission record (the duck-typed object returned by the submission API)
  is an ordered association list of attribute names to `Value`s.  `get_attr`
  probes both `hasattr`/`getattr` and `__dict__` in the source; over an
  attribute map these two passes coincide, so a single lookup pass is used.
* Python values that appear in the program are modelled by `Value`:
  `None`, ints, strings, enum members (whose `.name` is the bare member name
  and whose `str()` form is `"SubmissionStatus." ++ name`), and naive
  datetimes (as integer seconds; `str()` of a datetime is rendered through
  its numeric value, and a record's date field is either a datetime or
  absent/None — a non-datetime date value would raise in the source at the
  subtraction in `elapsed_minutes`, which a total embedding cannot mirror).
* `int(x)` on strings is modelled for ASCII digit strings with optional
  surrounding whitespace and sign; PEP 515 underscore grouping is not
  modelled (for `get_ref` this is observationally identical, because the
  digit-stripping fallback of the source produces the same integer).
* Slack delivery is external I/O: `slack_post` is modelled as a total
  function from the webhook and a delivery outcome oracle to a
  `PostOutcome`; notifications are recorded as structured `Notif` events.
-/

namespace KaggleWatch

/-- Python values occurring in the watcher's data flow. -/
inductive Value where
  | vnone : Value
  | vint (n : Int) : Value
  | vstr (s : String) : Value
  | venum (name : String) : Value
  | vdate (t : Int) : Value
deriving DecidableEq, Repr

/-- A submission record: an ordered attribute map. -/
abbrev Rec := List (String × Value)

/-- First value bound to attribute `n`, if any (models `hasattr`/`getattr`). -/
def lookupField : Rec → String → Option Value
  | [], _ => none
  | (k, v) :: rest, n => if k = n then some v else lookupField rest n

/-- The "absent" sentinels of the source: `None`, `""`, `"-"`, `"—"`. -/
def isSentinel (v : Value) : Bool :=
  v == Value.vnone || v == Value.vstr "" || v == Value.vstr "-" || v == Value.vstr "—"

/-- `get_attr(s, *names, default)`: first present, non-sentinel value wins. -/
def get_attr (s : Rec) (names : List String) (default : Value) : Value :=
  match names with
  | [] => default
  | n :: rest =>
    match lookupField s n with
    | some v => if isSentinel v then get_attr s rest default else v
    | none => get_attr s rest default

/-- Python `str(v)`. -/
def pyStr : Value → String
  | Value.vnone => "None"
  | Value.vint n => toString n
  | Value.vstr s => s
  | Value.venum n => "SubmissionStatus." ++ n
  | Value.vdate t => toString t

/-- Value of a nonempty ASCII digit string. -/
def digitsToNat (ds : List Char) : Nat :=
  ds.foldl (fun a c => 10 * a + (c.toNat - '0'.toNat)) 0

/-- Strip leading and trailing whitespace (Python `str.strip` for `int`). -/
def pyTrim (s : List Char) : List Char :=
  (((s.dropWhile Char.isWhitespace).reverse).dropWhile Char.isWhitespace).reverse

/-- Signed all-digit parse used by `int(str)`. -/
def parseSignedDigits (sign : Int) (ds : List Char) : Option Int :=
  if ¬ ds.isEmpty ∧ ds.all Char.isDigit then some (sign * (digitsToNat ds : Int)) else none

/-- Python `int(s)` on a string (ASCII, no underscore grouping). -/
def parseIntStr (s : String) : Option Int :=
  match pyTrim s.toList with
  | '-' :: ds => parseSignedDigits (-1) ds
  | '+' :: ds => parseSignedDigits 1 ds
  | ds => parseSignedDigits 1 ds

/-- Python `int(v)`: `some` on success, `none` where `int()` raises. -/
def pyToInt : Value → Option Int
  | Value.vint n => some n
  | Value.vstr s => parseIntStr s
  | _ => none

/-- `get_ref`: integer submission ref, digit-strip fallback, `-1` sentinel. -/
def get_ref (s : Rec) : Int :=
  let r := get_attr s ["_ref", "ref"] Value.vnone
  match pyToInt r with
  | some n => n
  | none =>
    let ds := (pyStr r).toList.filter Char.isDigit
    if ds.isEmpty then -1 else (digitsToNat ds : Int)

/-- `st.name` when the value is an enum member, else `str(st)`. -/
def statusRawName : Value → String
  | Value.venum n => n
  | v => pyStr v

/-- Python `str.replace(pat, "")` on char lists: remove non-overlapping
occurrences left to right.  `skip` counts characters of a matched occurrence
still to be consumed, keeping the recursion structural on the list. -/
def replaceAux (pat : List Char) (skip : Nat) : List Char → List Char
  | [] => []
  | c :: rest =>
    match skip with
    | n + 1 => replaceAux pat n rest
    | 0 =>
      if pat.isPrefixOf (c :: rest) then replaceAux pat (pat.length - 1) rest
      else c :: replaceAux pat 0 rest

/-- `s.replace(pat, "")` at string level. -/
def pyReplace (s pat : String) : String :=
  String.mk (replaceAux pat.toList 0 s.toList)

/-- Whether `pat` occurs as a contiguous sublist of `s`. -/
def hasOcc (pat : List Char) : List Char → Bool
  | [] => pat.isEmpty
  | c :: rest => pat.isPrefixOf (c :: rest) || hasOcc pat rest

/-- Python `str.lower()` (ASCII). -/
def pyLower (s : String) : String := String.mk (s.toList.map Char.toLower)

/-- `status_text`: normalize the raw status into the canonical status label. -/
def status_text (s : Rec) : String :=
  let st := get_attr s ["_status", "status"] (Value.vstr "")
  let nl := pyLower (pyReplace (statusRawName st) "SubmissionStatus.")
  if nl = "completed" ∨ nl = "complete" then "complete"
  else if nl = "uploading" then "pending"
  else nl

/-- Spec-side (for the refinement in C8): strip the namespace/type-qualifier
prefix from a raw status name, following the spec's words. -/
def stripQualifier (name : String) : String :=
  if ("SubmissionStatus.").toList.isPrefixOf name.toList then
    String.mk (name.toList.drop ("SubmissionStatus.").toList.length)
  else name

/-- The canonical-status mapping table: `completed`/`complete` ↦ `complete`,
`uploading` ↦ `pending`, every other label passes through verbatim. -/
def canonStatus (label : String) : String :=
  if label = "completed" ∨ label = "complete" then "complete"
  else if label = "uploading" then "pending"
  else label

/-- Spec-side status normalization as the claim words it: take the raw name,
strip the qualifier prefix, lower-case, then apply the canonical mapping. -/
def specStatusNormalize (name : String) : String :=
  canonStatus (pyLower (stripQualifier name))

/-- Python truthiness of an `Optional[str]`. -/
def strTruthy : Option String → Bool
  | none => false
  | some s => !s.isEmpty

/-- `score_display`: format the Public/Private LB line. -/
def score_display (s : Rec) : String :=
  let pub := get_attr s ["_public_score", "publicScore", "publicScoreDisplay", "scoreDisplay"] Value.vnone
  let prv := get_attr s ["_private_score", "privateScore", "privateScoreDisplay"] Value.vnone
  let pub_str : Option String := if isSentinel pub then none else some (pyStr pub)
  let prv_str : Option String := if isSentinel prv then none else some (pyStr prv)
  if strTruthy pub_str ∧ strTruthy prv_str then
    "Public LB: *" ++ pub_str.getD "" ++ "* / Private LB: *" ++ prv_str.getD "" ++ "*"
  else if strTruthy pub_str then "Public LB: *" ++ pub_str.getD "" ++ "*"
  else if strTruthy prv_str then "Private LB: *" ++ prv_str.getD "" ++ "*"
  else "Public LB: (N/A)"

/-- `submission_url`: individual submission URL or competition fallback. -/
def submission_url (s : Rec) (competition : String) : String :=
  let url_path := get_attr s ["_url", "url"] Value.vnone
  let truthy : Bool :=
    match url_path with
    | Value.vnone => false
    | Value.vint n => n != 0
    | Value.vstr t => !t.isEmpty
    | Value.venum _ => true
    | Value.vdate _ => true
  if truthy then "https://www.kaggle.com" ++ pyStr url_path
  else "https://www.kaggle.com/competitions/" ++ competition ++ "/submissions"

/-- `elapsed_minutes`: floored minute count, clamped to at least 1.
Datetimes are integer seconds; `//` on the (exact) float of whole seconds
is floor division, i.e. `Int.fdiv`. -/
def elapsed_minutes (from_dt to_dt : Int) : Int :=
  max 1 ((to_dt - from_dt).fdiv 60)

/-- Result of one `slack_post` call. -/
inductive PostOutcome where
  | notConfigured : PostOutcome
  | sent : PostOutcome
  | failedLogged : PostOutcome
deriving DecidableEq, Repr

/-- `slack_post`: warn when the webhook is unset; otherwise attempt delivery
once, swallowing (logging) any failure.  Total: no outcome propagates. -/
def slack_post (webhook_url : String) (deliverOk : Bool) : PostOutcome :=
  if webhook_url.isEmpty then PostOutcome.notConfigured
  else if deliverOk then PostOutcome.sent
  else PostOutcome.failedLogged

/-- One tracked entry: the value dict stored in `track[ref]`. -/
structure Entry where
  submit_time : Int
  last_seen_status : String
  last_reported_status : Option String
deriving DecidableEq, Repr

/-- The tracking dict `track : Dict[int, Dict[str, Any]]`. -/
abbrev Track := List (Int × Entry)

/-- Dict lookup `track.get(ref)`. -/
def tfind : Track → Int → Option Entry
  | [], _ => none
  | (k, v) :: rest, r => if k = r then some v else tfind rest r

/-- Dict store `track[ref] = e` (overwrite in place, else append). -/
def tset : Track → Int → Entry → Track
  | [], r, e => [(r, e)]
  | (k, v) :: rest, r, e => if k = r then (r, e) :: rest else (k, v) :: tset rest r e

/-- A structured notification event, one per `slack_post` in the reporting
loop, carrying the payload data the corresponding branch formats. -/
inductive Notif where
  | progress (ref : Int) (status : String) (elMin : Int) (link : String) : Notif
  | complete (ref : Int) (elMin : Int) (submitTime : Int) (scoreLine : String) (link : String) : Notif
  | error (ref : Int) (elMin : Int) (errDetail : String) (link : String) : Notif
  | other (ref : Int) (status : String) (elMin : Int) (link : String) : Notif
deriving DecidableEq, Repr

/-- The submission ref a notification is about. -/
def nref : Notif → Int
  | Notif.progress r _ _ _ => r
  | Notif.complete r _ _ _ _ => r
  | Notif.error r _ _ _ => r
  | Notif.other r _ _ _ => r

/-- Count the events of the given ref in a cycle's event list. -/
def countRef (r : Int) (evs : List (Notif × PostOutcome)) : Nat :=
  (evs.filter (fun p => nref p.1 == r)).length

/-- The "Update tracking" loop body for one record `s`. -/
def trackRecord (nowFallback : Int) (t : Track) (s : Rec) : Track :=
  let ref := get_ref s
  if ref = -1 then t
  else
    let seen := status_text s
    let submit_dt : Int :=
      match get_attr s ["_date", "date"] Value.vnone with
      | Value.vdate d => d
      | _ => nowFallback
    match tfind t ref with
    | none =>
      tset t ref ⟨submit_dt, seen, if seen = "complete" then some "complete" else none⟩
    | some e => tset t ref ⟨e.submit_time, seen, e.last_reported_status⟩

/-- The "Update tracking" loop over all fetched records. -/
def trackPhase (nowFallback : Int) (t : Track) : List Rec → Track
  | [] => t
  | s :: rest => trackPhase nowFallback (trackRecord nowFallback t s) rest

/-- The branch dispatch of the reporting loop: which notification is built
for a changed status, with the payload each branch formats. -/
def mkNotif (competition : String) (now : Int) (ref : Int) (info : Entry) (s : Rec) : Notif :=
  let seen := info.last_seen_status
  let el_min := elapsed_minutes info.submit_time now
  let link := submission_url s competition
  if seen = "pending" ∨ seen = "queued" ∨ seen = "running" then
    Notif.progress ref seen el_min link
  else if seen = "complete" then
    Notif.complete ref el_min info.submit_time (score_display s) link
  else if seen = "error" then
    Notif.error ref el_min
      (pyStr (get_attr s ["_error_description", "errorDescription"] (Value.vstr "(no detail)"))) link
  else Notif.other ref seen el_min link

/-- The "Report changed statuses" loop body for one record `s`:
skip invalid or untracked refs, skip unchanged statuses, otherwise build the
branch's notification, post it, and mark the status reported. -/
def reportRecord (w competition : String) (d : Notif → Bool) (now : Int)
    (t : Track) (s : Rec) : Track × Option (Notif × PostOutcome) :=
  let ref := get_ref s
  if ref = -1 then (t, none)
  else
    match tfind t ref with
    | none => (t, none)
    | some info =>
      if info.last_reported_status = some info.last_seen_status then (t, none)
      else
        let n := mkNotif competition now ref info s
        (tset t ref ⟨info.submit_time, info.last_seen_status, some info.last_seen_status⟩,
         some (n, slack_post w (d n)))

/-- The "Report changed statuses" loop over all fetched records, in order. -/
def reportPhase (w competition : String) (d : Notif → Bool) (now : Int)
    (t : Track) : List Rec → Track × List (Notif × PostOutcome)
  | [] => (t, [])
  | s :: rest =>
    let step := reportRecord w competition d now t s
    let tail := reportPhase w competition d now step.1 rest
    (tail.1, step.2.toList ++ tail.2)

/-- One full poll cycle: on fetch failure the cycle is skipped with the track
untouched and no events; on success, tracking update then reporting pass.
`nowFallback` models the per-record `datetime.now()` fallback for a missing
submission date, `now` the single `now_utc` of the reporting pass. -/
def runCycle (w competition : String) (d : Notif → Bool) (nowFallback now : Int)
    (fetch : Option (List Rec)) (t : Track) : Track × List (Notif × PostOutcome) :=
  match fetch with
  | none => (t, [])
  | some subs => reportPhase w competition d now (trackPhase nowFallback t subs) subs

/-! ### Helper lemmas: replacement and occurrence -/

theorem isPrefixOf_append (l₁ l₂ : List Char) : l₁.isPrefixOf (l₁ ++ l₂) = true := by
  induction l₁ with
  | nil => simp [List.isPrefixOf]
  | cons a as ih => simp [List.isPrefixOf, ih]

theorem hasOcc_isPrefixOf {pat l : List Char} (h : pat.isPrefixOf l = true) :
    hasOcc pat l = true := by
  cases l with
  | nil => simpa [hasOcc, List.isPrefixOf] using h
  | cons c rest => simp [hasOcc, h]

theorem replaceAux_skip (pat : List Char) (n : Nat) (l : List Char) :
    replaceAux pat n l = replaceAux pat 0 (l.drop n) := by
  induction n generalizing l with
  | zero => simp
  | succ m ih =>
    cases l with
    | nil => simp [replaceAux]
    | cons c rest => simpa [replaceAux] using ih rest

theorem replaceAux_no_occ {pat : List Char} :
    ∀ {l : List Char}, hasOcc pat l = false → replaceAux pat 0 l = l := by
  intro l
  induction l with
  | nil => intro _; rfl
  | cons c rest ih =>
    intro h
    rw [hasOcc, Bool.or_eq_false_iff] at h
    simp [replaceAux, h.1, ih h.2]

theorem replaceAux_cancel {pat : List Char} (hne : pat ≠ []) (l : List Char) :
    replaceAux pat 0 (pat ++ l) = replaceAux pat 0 l := by
  cases pat with
  | nil => exact absurd rfl hne
  | cons p pt =>
    have hpre := isPrefixOf_append (p :: pt) l
    simp only [List.cons_append, replaceAux, hpre, if_true]
    rw [replaceAux_skip]
    simp [List.length_cons, List.drop_left]

/-! ### Helper lemmas: the tracking dict -/

theorem tfind_tset_self (t : Track) (r : Int) (e : Entry) :
    tfind (tset t r e) r = some e := by
  induction t with
  | nil => simp [tset, tfind]
  | cons p rest ih =>
    obtain ⟨k, v⟩ := p
    by_cases h : k = r
    · simp [tset, h, tfind]
    · simp [tset, h, tfind, ih]

theorem tfind_tset_ne (t : Track) (r r' : Int) (e : Entry) (h : r ≠ r') :
    tfind (tset t r e) r' = tfind t r' := by
  induction t with
  | nil => simp [tset, tfind, h]
  | cons p rest ih =>
    obtain ⟨k, v⟩ := p
    by_cases hk : k = r
    · subst hk
      simp [tset, tfind, h]
    · simp [tset, hk, tfind, ih]

/-! ### Helper lemmas: tracking phase -/

theorem trackRecord_tfind_ne (nf : Int) (t : Track) (s : Rec) (r : Int)
    (h : get_ref s ≠ r) : tfind (trackRecord nf t s) r = tfind t r := by
  unfold trackRecord
  by_cases h1 : get_ref s = -1
  · simp [h1]
  · simp only [h1, if_false]
    cases h2 : tfind t (get_ref s) <;>
      simp [h2, tfind_tset_ne _ _ _ _ h]

theorem trackRecord_establishes (nf : Int) (t : Track) (s : Rec) (r : Int)
    (h : get_ref s = r) (h2 : r ≠ -1) :
    (tfind (trackRecord nf t s) r).isSome := by
  subst h
  unfold trackRecord
  simp only [h2, if_false]
  cases h3 : tfind t (get_ref s) <;>
    simp [h3, tfind_tset_self]

theorem trackRecord_mono (nf : Int) (t : Track) (s : Rec) (r : Int)
    (h : (tfind t r).isSome) : (tfind (trackRecord nf t s) r).isSome := by
  by_cases hr : get_ref s = r
  · by_cases h2 : r = -1
    · subst h2
      unfold trackRecord
      simpa [hr] using h
    · exact trackRecord_establishes nf t s r hr h2
  · rw [trackRecord_tfind_ne nf t s r hr]
    exact h

theorem trackPhase_mono (nf : Int) (l : List Rec) :
    ∀ (t : Track) (r : Int), (tfind t r).isSome →
      (tfind (trackPhase nf t l) r).isSome := by
  induction l with
  | nil => intro t r h; simpa [trackPhase] using h
  | cons s rest ih =>
    intro t r h
    exact ih _ _ (trackRecord_mono nf t s r h)

theorem trackPhase_covers (nf : Int) (l : List Rec) (r : Int) (h2 : r ≠ -1) :
    ∀ t : Track, (∃ s ∈ l, get_ref s = r) →
      (tfind (trackPhase nf t l) r).isSome := by
  induction l with
  | nil => intro t h; simp at h
  | cons a rest ih =>
    intro t hmem
    obtain ⟨s, hs, hr⟩ := hmem
    rcases List.mem_cons.mp hs with h | h
    · subst h
      exact trackPhase_mono nf rest _ r (trackRecord_establishes nf t s r hr h2)
    · exact ih _ ⟨s, h, hr⟩

theorem trackRecord_noop (nf : Int) (t : Track) (s : Rec)
    (h : get_ref s = -1) : trackRecord nf t s = t := by
  unfold trackRecord
  simp [h]

theorem trackRecord_update (nf : Int) (t : Track) (s : Rec) (r : Int) (e : Entry)
    (hr : get_ref s = r) (hneg : r ≠ -1) (h : tfind t r = some e) :
    trackRecord nf t s = tset t r ⟨e.submit_time, status_text s, e.last_reported_status⟩ := by
  subst hr
  unfold trackRecord
  simp [hneg, h]

theorem trackRecord_create (nf : Int) (t : Track) (s : Rec) (r : Int)
    (hr : get_ref s = r) (hneg : r ≠ -1) (h : tfind t r = none) :
    trackRecord nf t s =
      tset t r ⟨(match get_attr s ["_date", "date"] Value.vnone with
                 | Value.vdate d => d
                 | _ => nf),
                status_text s,
                if status_text s = "complete" then some "complete" else none⟩ := by
  subst hr
  unfold trackRecord
  simp [hneg, h]

theorem trackPhase_keep (nf : Int) (r : Int) (σ : String) (l : List Rec)
    (hsame : ∀ s ∈ l, get_ref s = r → status_text s = σ) :
    ∀ (t : Track) (st : Int) (rep : Option String),
      tfind t r = some ⟨st, σ, rep⟩ →
      tfind (trackPhase nf t l) r = some ⟨st, σ, rep⟩ := by
  induction l with
  | nil => intro t st rep h; simpa [trackPhase] using h
  | cons a rest ih =>
    intro t st rep h
    have hsame' : ∀ s ∈ rest, get_ref s = r → status_text s = σ := by
      intro s hs
      exact hsame s (List.mem_cons_of_mem a hs)
    have hstep : tfind (trackRecord nf t a) r = some ⟨st, σ, rep⟩ := by
      by_cases hr : get_ref a = r
      · by_cases hneg : r = -1
        · rw [trackRecord_noop nf t a (hr.trans hneg), h]
        · rw [trackRecord_update nf t a r ⟨st, σ, rep⟩ hr hneg h,
            hsame a (List.mem_cons_self a rest) hr, tfind_tset_self]
      · rw [trackRecord_tfind_ne nf t a r hr, h]
    exact ih hsame' _ st rep hstep

theorem trackPhase_seen (nf : Int) (r : Int) (σ : String) (hneg : r ≠ -1)
    (l : List Rec) (hsame : ∀ s ∈ l, get_ref s = r → status_text s = σ) :
    ∀ (t : Track) (st : Int) (sn : String) (rep : Option String),
      tfind t r = some ⟨st, sn, rep⟩ → (∃ s ∈ l, get_ref s = r) →
      tfind (trackPhase nf t l) r = some ⟨st, σ, rep⟩ := by
  induction l with
  | nil => intro t st sn rep _ hmem; simp at hmem
  | cons a rest ih =>
    intro t st sn rep h hmem
    have hsame' : ∀ s ∈ rest, get_ref s = r → status_text s = σ := by
      intro s hs
      exact hsame s (List.mem_cons_of_mem a hs)
    by_cases hr : get_ref a = r
    · have hstep : tfind (trackRecord nf t a) r = some ⟨st, σ, rep⟩ := by
        rw [trackRecord_update nf t a r ⟨st, sn, rep⟩ hr hneg h,
          hsame a (List.mem_cons_self a rest) hr, tfind_tset_self]
      exact trackPhase_keep nf r σ rest hsame' _ st rep hstep
    · have hstep : tfind (trackRecord nf t a) r = some ⟨st, sn, rep⟩ := by
        rw [trackRecord_tfind_ne nf t a r hr, h]
      obtain ⟨s, hs, hsr⟩ := hmem
      rcases List.mem_cons.mp hs with h1 | h1
      · exact absurd (h1 ▸ hsr) hr
      · exact ih hsame' _ st sn rep hstep ⟨s, h1, hsr⟩

theorem trackPhase_fresh (nf : Int) (r : Int) (σ : String) (hneg : r ≠ -1)
    (l : List Rec) (hsame : ∀ s ∈ l, get_ref s = r → status_text s = σ) :
    ∀ t : Track, tfind t r = none → (∃ s ∈ l, get_ref s = r) →
      ∃ st, tfind (trackPhase nf t l) r =
        some ⟨st, σ, if σ = "complete" then some "complete" else none⟩ := by
  induction l with
  | nil => intro t _ hmem; simp at hmem
  | cons a rest ih =>
    intro t hnone hmem
    have hsame' : ∀ s ∈ rest, get_ref s = r → status_text s = σ := by
      intro s hs
      exact hsame s (List.mem_cons_of_mem a hs)
    by_cases hr : get_ref a = r
    · have hst : status_text a = σ := hsame a (List.mem_cons_self a rest) hr
      refine ⟨(match get_attr a ["_date", "date"] Value.vnone with
               | Value.vdate d => d
               | _ => nf), ?_⟩
      have hstep : tfind (trackRecord nf t a) r =
          some ⟨(match get_attr a ["_date", "date"] Value.vnone with
                 | Value.vdate d => d
                 | _ => nf), σ, if σ = "complete" then some "complete" else none⟩ := by
        rw [trackRecord_create nf t a r hr hneg hnone, hst, tfind_tset_self]
      exact trackPhase_keep nf r σ rest hsame' _ _ _ hstep
    · have hstep : tfind (trackRecord nf t a) r = none := by
        rw [trackRecord_tfind_ne nf t a r hr, hnone]
      obtain ⟨s, hs, hsr⟩ := hmem
      rcases List.mem_cons.mp hs with h1 | h1
      · exact absurd (h1 ▸ hsr) hr
      · exact ih hsame' _ hstep ⟨s, h1, hsr⟩

/-! ### Helper lemmas: reporting phase -/

theorem nref_mkNotif (c : String) (now : Int) (ref : Int) (info : Entry) (s : Rec) :
    nref (mkNotif c now ref info s) = ref := by
  simp only [mkNotif]
  split
  · rfl
  · split
    · rfl
    · split
      · rfl
      · rfl

theorem reportRecord_neg (w c : String) (d : Notif → Bool) (now : Int) (t : Track) (s : Rec)
    (h : get_ref s = -1) : reportRecord w c d now t s = (t, none) := by
  unfold reportRecord
  simp [h]

theorem reportRecord_untracked (w c : String) (d : Notif → Bool) (now : Int) (t : Track) (s : Rec)
    (h1 : get_ref s ≠ -1) (h2 : tfind t (get_ref s) = none) :
    reportRecord w c d now t s = (t, none) := by
  unfold reportRecord
  simp [h1, h2]

theorem reportRecord_skip (w c : String) (d : Notif → Bool) (now : Int) (t : Track) (s : Rec)
    (info : Entry) (h2 : tfind t (get_ref s) = some info)
    (h3 : info.last_reported_status = some info.last_seen_status) :
    reportRecord w c d now t s = (t, none) := by
  unfold reportRecord
  by_cases h1 : get_ref s = -1
  · simp [h1]
  · simp [h1, h2, h3]

theorem reportRecord_emit (w c : String) (d : Notif → Bool) (now : Int) (t : Track) (s : Rec)
    (info : Entry) (h1 : get_ref s ≠ -1) (h2 : tfind t (get_ref s) = some info)
    (h3 : info.last_reported_status ≠ some info.last_seen_status) :
    reportRecord w c d now t s =
      (tset t (get_ref s) ⟨info.submit_time, info.last_seen_status, some info.last_seen_status⟩,
       some (mkNotif c now (get_ref s) info s,
             slack_post w (d (mkNotif c now (get_ref s) info s)))) := by
  unfold reportRecord
  simp [h1, h2, h3]

theorem reportRecord_event_ref (w c : String) (d : Notif → Bool) (now : Int) (t : Track)
    (s : Rec) (p : Notif × PostOutcome) (h : (reportRecord w c d now t s).2 = some p) :
    nref p.1 = get_ref s := by
  by_cases h1 : get_ref s = -1
  · rw [reportRecord_neg w c d now t s h1] at h
    simp at h
  · cases h2 : tfind t (get_ref s) with
    | none =>
      rw [reportRecord_untracked w c d now t s h1 h2] at h
      simp at h
    | some info =>
      by_cases h3 : info.last_reported_status = some info.last_seen_status
      · rw [reportRecord_skip w c d now t s info h2 h3] at h
        simp at h
      · rw [reportRecord_emit w c d now t s info h1 h2 h3] at h
        have hp := Option.some.inj h
        rw [← hp]
        exact nref_mkNotif c now (get_ref s) info s

theorem reportRecord_track_ne (w c : String) (d : Notif → Bool) (now : Int) (t : Track)
    (s : Rec) (r : Int) (h : get_ref s ≠ r) :
    tfind ((reportRecord w c d now t s).1) r = tfind t r := by
  by_cases h1 : get_ref s = -1
  · rw [reportRecord_neg w c d now t s h1]
  · cases h2 : tfind t (get_ref s) with
    | none => rw [reportRecord_untracked w c d now t s h1 h2]
    | some info =>
      by_cases h3 : info.last_reported_status = some info.last_seen_status
      · rw [reportRecord_skip w c d now t s info h2 h3]
      · rw [reportRecord_emit w c d now t s info h1 h2 h3]
        exact tfind_tset_ne t (get_ref s) r _ h

theorem reportRecord_pres (w c : String) (d : Notif → Bool) (now : Int) (t : Track)
    (s : Rec) (r : Int) (e : Entry) (hq : tfind t r = some e)
    (he : e.last_reported_status = some e.last_seen_status) :
    tfind ((reportRecord w c d now t s).1) r = some e ∧
    ∀ p, (reportRecord w c d now t s).2 = some p → nref p.1 ≠ r := by
  by_cases hr : get_ref s = r
  · have hskip : reportRecord w c d now t s = (t, none) :=
      reportRecord_skip w c d now t s e (by rw [hr]; exact hq) he
    refine ⟨by rw [hskip]; exact hq, ?_⟩
    intro p hp
    rw [hskip] at hp
    simp at hp
  · refine ⟨by rw [reportRecord_track_ne w c d now t s r hr]; exact hq, ?_⟩
    intro p hp
    rw [reportRecord_event_ref w c d now t s p hp]
    exact hr

/-! ### Helper lemmas: event counting -/

theorem countRef_append (r : Int) (xs ys : List (Notif × PostOutcome)) :
    countRef r (xs ++ ys) = countRef r xs + countRef r ys := by
  simp [countRef, List.filter_append]

theorem countRef_toList_ne (r : Int) (o : Option (Notif × PostOutcome))
    (h : ∀ p, o = some p → nref p.1 ≠ r) : countRef r o.toList = 0 := by
  cases o with
  | none => rfl
  | some p =>
    have hne : (nref p.1 == r) = false := by
      simp [h p rfl]
    simp [countRef, List.filter, hne]

theorem countRef_toList_eq (r : Int) (o : Option (Notif × PostOutcome)) (p : Notif × PostOutcome)
    (ho : o = some p) (h : nref p.1 = r) : countRef r o.toList = 1 := by
  subst ho
  have : (nref p.1 == r) = true := by simp [h]
  simp [countRef, List.filter, this]

theorem reportPhase_pres (w c : String) (d : Notif → Bool) (now : Int) (r : Int)
    (l : List Rec) :
    ∀ (t : Track) (e : Entry), tfind t r = some e →
      e.last_reported_status = some e.last_seen_status →
      tfind ((reportPhase w c d now t l).1) r = some e ∧
      countRef r ((reportPhase w c d now t l).2) = 0 := by
  induction l with
  | nil => intro t e h _; exact ⟨h, rfl⟩
  | cons s rest ih =>
    intro t e h he
    obtain ⟨h1, h2⟩ := reportRecord_pres w c d now t s r e h he
    obtain ⟨ih1, ih2⟩ := ih ((reportRecord w c d now t s).1) e h1 he
    refine ⟨ih1, ?_⟩
    show countRef r ((reportRecord w c d now t s).2.toList ++
        (reportPhase w c d now ((reportRecord w c d now t s).1) rest).2) = 0
    rw [countRef_append, countRef_toList_ne r _ h2, ih2]

theorem reportPhase_emit_one (w c : String) (d : Notif → Bool) (now : Int) (r : Int)
    (hneg : r ≠ -1) (l : List Rec) :
    ∀ (t : Track) (e : Entry), tfind t r = some e →
      e.last_reported_status ≠ some e.last_seen_status →
      (∃ s ∈ l, get_ref s = r) →
      tfind ((reportPhase w c d now t l).1) r =
        some ⟨e.submit_time, e.last_seen_status, some e.last_seen_status⟩ ∧
      countRef r ((reportPhase w c d now t l).2) = 1 := by
  induction l with
  | nil => intro t e _ _ hmem; simp at hmem
  | cons s rest ih =>
    intro t e h he hmem
    by_cases hr : get_ref s = r
    · have hemit := reportRecord_emit w c d now t s e (by rw [hr]; exact hneg)
        (by rw [hr]; exact h) he
      have hstep1 : tfind ((reportRecord w c d now t s).1) r =
          some ⟨e.submit_time, e.last_seen_status, some e.last_seen_status⟩ := by
        rw [hemit, hr]
        exact tfind_tset_self t r _
      obtain ⟨p1, p2⟩ := reportPhase_pres w c d now r rest
        ((reportRecord w c d now t s).1) ⟨e.submit_time, e.last_seen_status, some e.last_seen_status⟩
        hstep1 rfl
      refine ⟨p1, ?_⟩
      show countRef r ((reportRecord w c d now t s).2.toList ++
          (reportPhase w c d now ((reportRecord w c d now t s).1) rest).2) = 1
      rw [countRef_append, p2,
        countRef_toList_eq r _ _ (by rw [hemit]) (by rw [nref_mkNotif]; exact hr)]
    · have h1 : tfind ((reportRecord w c d now t s).1) r = some e := by
        rw [reportRecord_track_ne w c d now t s r hr]
        exact h
      have h2 : countRef r ((reportRecord w c d now t s).2.toList) = 0 :=
        countRef_toList_ne r _ (fun p hp => by
          rw [reportRecord_event_ref w c d now t s p hp]; exact hr)
      obtain ⟨s₀, hs₀, hs₀r⟩ := hmem
      rcases List.mem_cons.mp hs₀ with hh | hh
      · exact absurd (hh ▸ hs₀r) hr
      · obtain ⟨ih1, ih2⟩ := ih _ e h1 he ⟨s₀, hh, hs₀r⟩
        refine ⟨ih1, ?_⟩
        show countRef r ((reportRecord w c d now t s).2.toList ++
            (reportPhase w c d now ((reportRecord w c d now t s).1) rest).2) = 1
        rw [countRef_append, h2, ih2]

theorem reportPhase_final (w c : String) (d : Notif → Bool) (now : Int) (r : Int)
    (hneg : r ≠ -1) (l : List Rec) (t : Track)
    (hsome : (tfind t r).isSome) (hmem : ∃ s ∈ l, get_ref s = r) :
    ∃ e, tfind ((reportPhase w c d now t l).1) r = some e ∧
      e.last_reported_status = some e.last_seen_status := by
  obtain ⟨e, he⟩ := Option.isSome_iff_exists.mp hsome
  by_cases hq : e.last_reported_status = some e.last_seen_status
  · exact ⟨e, (reportPhase_pres w c d now r l t e he hq).1, hq⟩
  · exact ⟨_, (reportPhase_emit_one w c d now r hneg l t e he hq hmem).1, rfl⟩

/-! ### Helper lemmas: independence from the delivery outcome -/

theorem optionMapFst_toList (o₁ o₂ : Option (Notif × PostOutcome))
    (h : o₁.map Prod.fst = o₂.map Prod.fst) :
    o₁.toList.map Prod.fst = o₂.toList.map Prod.fst := by
  cases o₁ <;> cases o₂ <;> simp_all

theorem reportRecord_oracle (w c : String) (d₁ d₂ : Notif → Bool) (now : Int)
    (t : Track) (s : Rec) :
    (reportRecord w c d₁ now t s).1 = (reportRecord w c d₂ now t s).1 ∧
    (reportRecord w c d₁ now t s).2.map Prod.fst =
      (reportRecord w c d₂ now t s).2.map Prod.fst := by
  by_cases h1 : get_ref s = -1
  · rw [reportRecord_neg w c d₁ now t s h1, reportRecord_neg w c d₂ now t s h1]
    exact ⟨rfl, rfl⟩
  · cases h2 : tfind t (get_ref s) with
    | none =>
      rw [reportRecord_untracked w c d₁ now t s h1 h2,
        reportRecord_untracked w c d₂ now t s h1 h2]
      exact ⟨rfl, rfl⟩
    | some info =>
      by_cases h3 : info.last_reported_status = some info.last_seen_status
      · rw [reportRecord_skip w c d₁ now t s info h2 h3,
          reportRecord_skip w c d₂ now t s info h2 h3]
        exact ⟨rfl, rfl⟩
      · rw [reportRecord_emit w c d₁ now t s info h1 h2 h3,
          reportRecord_emit w c d₂ now t s info h1 h2 h3]
        exact ⟨rfl, rfl⟩

theorem reportPhase_oracle (w c : String) (d₁ d₂ : Notif → Bool) (now : Int)
    (l : List Rec) :
    ∀ t : Track,
      (reportPhase w c d₁ now t l).1 = (reportPhase w c d₂ now t l).1 ∧
      (reportPhase w c d₁ now t l).2.map Prod.fst =
        (reportPhase w c d₂ now t l).2.map Prod.fst := by
  induction l with
  | nil => intro t; exact ⟨rfl, rfl⟩
  | cons s rest ih =>
    intro t
    obtain ⟨ht, hn⟩ := reportRecord_oracle w c d₁ d₂ now t s
    obtain ⟨iht, ihn⟩ := ih ((reportRecord w c d₁ now t s).1)
    constructor
    · show (reportPhase w c d₁ now (reportRecord w c d₁ now t s).1 rest).1 =
        (reportPhase w c d₂ now (reportRecord w c d₂ now t s).1 rest).1
      rw [← ht]
      exact iht
    · show ((reportRecord w c d₁ now t s).2.toList ++
          (reportPhase w c d₁ now (reportRecord w c d₁ now t s).1 rest).2).map Prod.fst =
        ((reportRecord w c d₂ now t s).2.toList ++
          (reportPhase w c d₂ now (reportRecord w c d₂ now t s).1 rest).2).map Prod.fst
      have e2 : (reportPhase w c d₁ now (reportRecord w c d₁ now t s).1 rest).2.map Prod.fst =
          (reportPhase w c d₂ now (reportRecord w c d₂ now t s).1 rest).2.map Prod.fst := by
        rw [← ht]
        exact ihn
      rw [List.map_append, List.map_append, optionMapFst_toList _ _ hn, e2]

/-! ### The claims -/

/-- C3: if the per-cycle fetch fails, the whole remainder of the cycle is
skipped: no tracked entry is created, removed, or mutated (the track map is
returned unchanged), and no notification event is emitted. -/
theorem claim3_fetch_failure_isolation (w c : String) (d : Notif → Bool)
    (nf now : Int) (t : Track) :
    runCycle w c d nf now none t = (t, []) := rfl

/-- C5: the elapsed-minutes value equals `max 1 ⌊(now − submit_time)/60⌋`
(seconds to floored minutes); it is at least 1, and in particular equals 1
whenever the submit time equals or exceeds the observation time. -/
theorem claim5_elapsed_floor (f t : Int) :
    elapsed_minutes f t = max 1 ⌊((t - f : Int) : ℚ) / (60 : ℚ)⌋ ∧
    1 ≤ elapsed_minutes f t ∧
    (t ≤ f → elapsed_minutes f t = 1) := by
  have hfd : (t - f).fdiv 60 = (t - f) / 60 := Int.fdiv_eq_ediv _ (by norm_num)
  refine ⟨?_, le_max_left _ _, ?_⟩
  · unfold elapsed_minutes
    rw [hfd]
    congr 1
    exact_mod_cast (Rat.floor_intCast_div_natCast (t - f) 60).symm
  · intro h
    unfold elapsed_minutes
    rw [hfd, max_eq_left (by omega : (t - f) / 60 ≤ 1)]

/-- C5 witness: at `submit_time = observation time = 5` the hypothesis of the
degenerate case holds and the elapsed minutes are clamped to 1. -/
theorem claim5_witness : (5 : Int) ≤ 5 ∧ elapsed_minutes 5 5 = 1 :=
  ⟨le_refl 5, (claim5_elapsed_floor 5 5).2.2 (le_refl 5)⟩

/-- C6: the score line of a complete notification: both scores present give
`Public LB: *pub* / Private LB: *prv*`, public only gives `Public LB: *pub*`,
and when both fields are absent — where `None`, the empty string, `"-"` and
the em-dash all count as absent — it gives `Public LB: (N/A)`. -/
theorem claim6_score_line :
    score_display [("publicScore", Value.vstr "0.812"), ("privateScore", Value.vstr "0.799")] =
      "Public LB: *0.812* / Private LB: *0.799*" ∧
    score_display [("publicScore", Value.vstr "0.812")] = "Public LB: *0.812*" ∧
    (∀ p q : Value, isSentinel p = true → isSentinel q = true →
      score_display [("publicScore", p), ("privateScore", q)] = "Public LB: (N/A)") := by
  refine ⟨rfl, rfl, ?_⟩
  intro p q hp hq
  have hp' : p = Value.vnone ∨ p = Value.vstr "" ∨ p = Value.vstr "-" ∨ p = Value.vstr "—" := by
    simpa [isSentinel, Bool.or_eq_true, beq_iff_eq, or_assoc] using hp
  have hq' : q = Value.vnone ∨ q = Value.vstr "" ∨ q = Value.vstr "-" ∨ q = Value.vstr "—" := by
    simpa [isSentinel, Bool.or_eq_true, beq_iff_eq, or_assoc] using hq
  rcases hp' with h | h | h | h <;> rcases hq' with g | g | g | g <;> subst h <;> subst g <;> rfl

/-- C6 witness: the dash and em-dash sentinels are treated as absent scores. -/
theorem claim6_witness :
    isSentinel (Value.vstr "-") = true ∧ isSentinel (Value.vstr "—") = true ∧
    score_display [("publicScore", Value.vstr "-"), ("privateScore", Value.vstr "—")] =
      "Public LB: (N/A)" :=
  ⟨by decide, by decide,
    claim6_score_line.2.2 (Value.vstr "-") (Value.vstr "—") (by decide) (by decide)⟩

/-- C7: identifier extraction coerces the raw reference to an integer; when
direct coercion fails it parses the digit characters of the string form
(`"sub-00991"` yields 991); with no digits the ref is the `-1` sentinel and
both loops discard the record, touching nothing and emitting nothing. -/
theorem claim7_ref_extraction :
    (∀ (s : Rec) (v : Value) (n : Int),
        get_attr s ["_ref", "ref"] Value.vnone = v → pyToInt v = some n →
        get_ref s = n) ∧
    (∀ (s : Rec) (v : Value),
        get_attr s ["_ref", "ref"] Value.vnone = v → pyToInt v = none →
        get_ref s =
          (if ((pyStr v).toList.filter Char.isDigit).isEmpty then -1
           else (digitsToNat ((pyStr v).toList.filter Char.isDigit) : Int))) ∧
    get_ref [("ref", Value.vstr "sub-00991")] = 991 ∧
    (∀ (nf now : Int) (w c : String) (d : Notif → Bool) (t : Track) (s : Rec),
        get_ref s = -1 →
        trackRecord nf t s = t ∧ reportRecord w c d now t s = (t, none)) := by
  refine ⟨?_, ?_, rfl, ?_⟩
  · intro s v n hv hn
    unfold get_ref
    rw [hv]
    simp only [hn]
  · intro s v hv hn
    unfold get_ref
    rw [hv]
    simp only [hn]
  · intro nf now w c d t s h
    exact ⟨trackRecord_noop nf t s h, reportRecord_neg w c d now t s h⟩

/-- C7 witness: the raw string ref `"42"` coerces directly, `"sub-00991"`
falls back to digit stripping, and a digitless ref is discarded by both
loops of a cycle. -/
theorem claim7_witness :
    get_attr [("ref", Value.vstr "42")] ["_ref", "ref"] Value.vnone = Value.vstr "42" ∧
    pyToInt (Value.vstr "42") = some 42 ∧
    get_ref [("ref", Value.vstr "42")] = 42 ∧
    get_ref [("ref", Value.vstr "nodigits")] = -1 ∧
    trackRecord 0 [] [("ref", Value.vstr "nodigits")] = [] ∧
    reportRecord "w" "c" (fun _ => true) 0 [] [("ref", Value.vstr "nodigits")] = ([], none) :=
  ⟨by decide, by decide,
    claim7_ref_extraction.1 [("ref", Value.vstr "42")] (Value.vstr "42") 42 (by decide) (by decide),
    by decide,
    (claim7_ref_extraction.2.2.2 0 0 "w" "c" (fun _ => true) [] [("ref", Value.vstr "nodigits")]
      (by decide)).1,
    (claim7_ref_extraction.2.2.2 0 0 "w" "c" (fun _ => true) [] [("ref", Value.vstr "nodigits")]
      (by decide)).2⟩

/-- C10: `-1` is the discard sentinel of identifier extraction: a reference
value that directly coerces to `-1` (the integer `-1` or the string `"-1"`)
makes `get_ref` return `-1`, and any record whose ref is `-1` is skipped by
both the tracking and the reporting loop, so it can neither create a tracked
entry nor produce a notification. -/
theorem claim10_discard_sentinel :
    get_ref [("ref", Value.vint (-1))] = -1 ∧
    get_ref [("ref", Value.vstr "-1")] = -1 ∧
    (∀ (s : Rec) (v : Value),
        get_attr s ["_ref", "ref"] Value.vnone = v → pyToInt v = some (-1) →
        get_ref s = -1) ∧
    (∀ (nf now : Int) (w c : String) (d : Notif → Bool) (t : Track) (s : Rec),
        get_ref s = -1 →
        trackRecord nf t s = t ∧ reportRecord w c d now t s = (t, none)) := by
  refine ⟨rfl, rfl, ?_, ?_⟩
  · intro s v hv hn
    unfold get_ref
    rw [hv]
    simp only [hn]
  · intro nf now w c d t s h
    exact ⟨trackRecord_noop nf t s h, reportRecord_neg w c d now t s h⟩

/-- C10 witness: a record whose ref is the integer `-1` is treated exactly
like an invalid one: discarded by both loops. -/
theorem claim10_witness :
    get_attr [("ref", Value.vint (-1))] ["_ref", "ref"] Value.vnone = Value.vint (-1) ∧
    pyToInt (Value.vint (-1)) = some (-1) ∧
    get_ref [("ref", Value.vint (-1))] = -1 ∧
    trackRecord 7 [(3, ⟨0, "running", none⟩)] [("ref", Value.vint (-1))] =
      [(3, ⟨0, "running", none⟩)] ∧
    reportRecord "w" "c" (fun _ => true) 7 [(3, ⟨0, "running", none⟩)] [("ref", Value.vint (-1))] =
      ([(3, ⟨0, "running", none⟩)], none) :=
  ⟨by decide, by decide,
    claim10_discard_sentinel.2.2.1 [("ref", Value.vint (-1))] (Value.vint (-1))
      (by decide) (by decide),
    (claim10_discard_sentinel.2.2.2 7 7 "w" "c" (fun _ => true)
      [(3, ⟨0, "running", none⟩)] [("ref", Value.vint (-1))] (by decide)).1,
    (claim10_discard_sentinel.2.2.2 7 7 "w" "c" (fun _ => true)
      [(3, ⟨0, "running", none⟩)] [("ref", Value.vint (-1))] (by decide)).2⟩

/-- C1: during the reporting pass of a successful cycle, a tracked id's
record triggers an emission if and only if its `last_reported_status`
differs from its `last_seen_status` at evaluation time; immediately after an
emission the entry satisfies `last_reported_status = last_seen_status`; and
after a completed reporting pass that included the id, its entry satisfies
`last_reported_status = last_seen_status`. -/
theorem claim1_report_iff_and_sync :
    (∀ (w c : String) (d : Notif → Bool) (now : Int) (t : Track) (s : Rec) (info : Entry),
        get_ref s ≠ -1 → tfind t (get_ref s) = some info →
        (((reportRecord w c d now t s).2).isSome ↔
          info.last_reported_status ≠ some info.last_seen_status)) ∧
    (∀ (w c : String) (d : Notif → Bool) (now : Int) (t : Track) (s : Rec)
        (p : Notif × PostOutcome),
        (reportRecord w c d now t s).2 = some p →
        ∃ e, tfind ((reportRecord w c d now t s).1) (get_ref s) = some e ∧
          e.last_reported_status = some e.last_seen_status) ∧
    (∀ (w c : String) (d : Notif → Bool) (nf now : Int) (t : Track) (subs : List Rec)
        (s : Rec), s ∈ subs → get_ref s ≠ -1 →
        ∃ e, tfind ((runCycle w c d nf now (some subs) t).1) (get_ref s) = some e ∧
          e.last_reported_status = some e.last_seen_status) := by
  refine ⟨?_, ?_, ?_⟩
  · intro w c d now t s info h1 h2
    by_cases h3 : info.last_reported_status = some info.last_seen_status
    · rw [reportRecord_skip w c d now t s info h2 h3]
      simp [h3]
    · rw [reportRecord_emit w c d now t s info h1 h2 h3]
      simp [h3]
  · intro w c d now t s p hp
    by_cases h1 : get_ref s = -1
    · rw [reportRecord_neg w c d now t s h1] at hp
      simp at hp
    · cases h2 : tfind t (get_ref s) with
      | none =>
        rw [reportRecord_untracked w c d now t s h1 h2] at hp
        simp at hp
      | some info =>
        by_cases h3 : info.last_reported_status = some info.last_seen_status
        · rw [reportRecord_skip w c d now t s info h2 h3] at hp
          simp at hp
        · refine ⟨⟨info.submit_time, info.last_seen_status, some info.last_seen_status⟩, ?_, rfl⟩
          rw [reportRecord_emit w c d now t s info h1 h2 h3]
          exact tfind_tset_self t (get_ref s) _
  · intro w c d nf now t subs s hs h1
    have hsome : (tfind (trackPhase nf t subs) (get_ref s)).isSome :=
      trackPhase_covers nf subs (get_ref s) h1 t ⟨s, hs, rfl⟩
    exact reportPhase_final w c d now (get_ref s) h1 subs (trackPhase nf t subs) hsome ⟨s, hs, rfl⟩

/-- C1 witness: one cycle over a single running submission leaves its entry
with `last_reported_status = last_seen_status`. -/
theorem claim1_witness :
    [("ref", Value.vint 5), ("status", Value.venum "RUNNING")] ∈
      [[("ref", Value.vint 5), ("status", Value.venum "RUNNING")]] ∧
    get_ref [("ref", Value.vint 5), ("status", Value.venum "RUNNING")] ≠ -1 ∧
    ∃ e, tfind ((runCycle "w" "c" (fun _ => true) 0 600
          (some [[("ref", Value.vint 5), ("status", Value.venum "RUNNING")]]) []).1)
        (get_ref [("ref", Value.vint 5), ("status", Value.venum "RUNNING")]) = some e ∧
      e.last_reported_status = some e.last_seen_status :=
  ⟨by decide, by decide,
    claim1_report_iff_and_sync.2.2 "w" "c" (fun _ => true) 0 600 []
      [[("ref", Value.vint 5), ("status", Value.venum "RUNNING")]]
      [("ref", Value.vint 5), ("status", Value.venum "RUNNING")] (by decide) (by decide)⟩

/-- C2: over consecutive polls whose fetched records give the same status σ
to a given id every cycle, the first cycle emits exactly one notification
for that id when its phase-1 entry has `last_seen_status ≠
last_reported_status` (and zero otherwise), and every later cycle emits zero
notifications for that id. -/
theorem claim2_idempotent_repolling (w c : String) (d : Notif → Bool) (nf now : Int)
    (subs : List Rec) (r : Int) (σ : String) (t₀ : Track)
    (hneg : r ≠ -1) (hmem : ∃ s ∈ subs, get_ref s = r)
    (hsame : ∀ s ∈ subs, get_ref s = r → status_text s = σ) :
    (∃ e, tfind (trackPhase nf t₀ subs) r = some e ∧
        countRef r ((runCycle w c d nf now (some subs) t₀).2) =
          (if e.last_reported_status = some e.last_seen_status then 0 else 1)) ∧
    (∀ k : Nat,
        countRef r ((runCycle w c d nf now (some subs)
          ((fun t => (runCycle w c d nf now (some subs) t).1)^[k + 1] t₀)).2) = 0) := by
  have hphase : ∀ t : Track, ∃ e, tfind (trackPhase nf t subs) r = some e ∧
      e.last_seen_status = σ := by
    intro t
    cases h0 : tfind t r with
    | none =>
      obtain ⟨st, h⟩ := trackPhase_fresh nf r σ hneg subs hsame t h0 hmem
      exact ⟨_, h, rfl⟩
    | some e0 =>
      obtain ⟨st, sn, rep⟩ := e0
      exact ⟨_, trackPhase_seen nf r σ hneg subs hsame t st sn rep h0 hmem, rfl⟩
  constructor
  · obtain ⟨e, he, hseen⟩ := hphase t₀
    refine ⟨e, he, ?_⟩
    by_cases hq : e.last_reported_status = some e.last_seen_status
    · rw [if_pos hq]
      exact (reportPhase_pres w c d now r subs _ e he hq).2
    · rw [if_neg hq]
      exact (reportPhase_emit_one w c d now r hneg subs _ e he hq hmem).2
  · have hcycle : ∀ t : Track, ∃ st,
        tfind ((runCycle w c d nf now (some subs) t).1) r = some ⟨st, σ, some σ⟩ := by
      intro t
      obtain ⟨e1, he1, hs1⟩ := hphase t
      obtain ⟨st1, sn1, rep1⟩ := e1
      simp only [Entry.last_seen_status] at hs1
      subst hs1
      by_cases hq : rep1 = some sn1
      · subst hq
        exact ⟨st1, (reportPhase_pres w c d now r subs _ _ he1 rfl).1⟩
      · exact ⟨st1, (reportPhase_emit_one w c d now r hneg subs _ _ he1
          (by simpa using hq) hmem).1⟩
    have hzero : ∀ (t : Track) (st : Int), tfind t r = some ⟨st, σ, some σ⟩ →
        countRef r ((runCycle w c d nf now (some subs) t).2) = 0 := by
      intro t st h
      have h1 : tfind (trackPhase nf t subs) r = some ⟨st, σ, some σ⟩ :=
        trackPhase_keep nf r σ subs hsame t st (some σ) h
      exact (reportPhase_pres w c d now r subs _ _ h1 rfl).2
    intro k
    obtain ⟨st, hst⟩ := hcycle ((fun t => (runCycle w c d nf now (some subs) t).1)^[k] t₀)
    rw [Function.iterate_succ_apply' (fun t => (runCycle w c d nf now (some subs) t).1) k t₀]
    exact hzero _ st hst

/-- C2 witness: re-polling the same running submission emits once in the
first cycle and zero times in the second. -/
theorem claim2_witness :
    (5 : Int) ≠ -1 ∧
    (∃ e, tfind (trackPhase 0 []
          [[("ref", Value.vint 5), ("status", Value.venum "RUNNING")]]) 5 = some e ∧
        countRef 5 ((runCycle "w" "c" (fun _ => true) 0 600
          (some [[("ref", Value.vint 5), ("status", Value.venum "RUNNING")]]) []).2) =
          (if e.last_reported_status = some e.last_seen_status then 0 else 1)) ∧
    countRef 5 ((runCycle "w" "c" (fun _ => true) 0 600
        (some [[("ref", Value.vint 5), ("status", Value.venum "RUNNING")]])
        ((fun t => (runCycle "w" "c" (fun _ => true) 0 600
          (some [[("ref", Value.vint 5), ("status", Value.venum "RUNNING")]]) t).1)^[1] [])).2) = 0 :=
  ⟨by decide,
    (claim2_idempotent_repolling "w" "c" (fun _ => true) 0 600
      [[("ref", Value.vint 5), ("status", Value.venum "RUNNING")]] 5 "running" []
      (by decide) ⟨[("ref", Value.vint 5), ("status", Value.venum "RUNNING")], by decide, by decide⟩
      (by decide)).1,
    (claim2_idempotent_repolling "w" "c" (fun _ => true) 0 600
      [[("ref", Value.vint 5), ("status", Value.venum "RUNNING")]] 5 "running" []
      (by decide) ⟨[("ref", Value.vint 5), ("status", Value.venum "RUNNING")], by decide, by decide⟩
      (by decide)).2 0⟩

/-- C4: an id first observed with canonical status σ gets a fresh entry with
`last_reported_status` pre-seeded to `complete` exactly when σ is
`complete` (otherwise unset), and when σ is `complete` the cycle emits no
notification for that id. -/
theorem claim4_preseed_complete (w c : String) (d : Notif → Bool) (nf now : Int)
    (t : Track) (subs : List Rec) (r : Int) (σ : String)
    (hneg : r ≠ -1) (hfresh : tfind t r = none)
    (hmem : ∃ s ∈ subs, get_ref s = r)
    (hsame : ∀ s ∈ subs, get_ref s = r → status_text s = σ) :
    (∃ st, tfind (trackPhase nf t subs) r =
        some ⟨st, σ, if σ = "complete" then some "complete" else none⟩) ∧
    (σ = "complete" → countRef r ((runCycle w c d nf now (some subs) t).2) = 0) := by
  obtain ⟨st, hst⟩ := trackPhase_fresh nf r σ hneg subs hsame t hfresh hmem
  refine ⟨⟨st, hst⟩, ?_⟩
  intro hσ
  subst hσ
  have h1 : tfind (trackPhase nf t subs) r = some ⟨st, "complete", some "complete"⟩ := by
    simpa using hst
  exact (reportPhase_pres w c d now r subs _ _ h1 rfl).2

/-- C4 witness: a submission first seen already complete is pre-seeded and
its first cycle emits nothing. -/
theorem claim4_witness :
    (∃ st, tfind (trackPhase 0 []
        [[("ref", Value.vint 9), ("status", Value.venum "COMPLETE")]]) 9 =
        some ⟨st, "complete", if "complete" = "complete" then some "complete" else none⟩) ∧
    countRef 9 ((runCycle "w" "c" (fun _ => true) 0 600
      (some [[("ref", Value.vint 9), ("status", Value.venum "COMPLETE")]]) []).2) = 0 :=
  ⟨(claim4_preseed_complete "w" "c" (fun _ => true) 0 600 []
      [[("ref", Value.vint 9), ("status", Value.venum "COMPLETE")]] 9 "complete"
      (by decide) (by decide)
      ⟨[("ref", Value.vint 9), ("status", Value.venum "COMPLETE")], by decide, by decide⟩
      (by decide)).1,
    (claim4_preseed_complete "w" "c" (fun _ => true) 0 600 []
      [[("ref", Value.vint 9), ("status", Value.venum "COMPLETE")]] 9 "complete"
      (by decide) (by decide)
      ⟨[("ref", Value.vint 9), ("status", Value.venum "COMPLETE")], by decide, by decide⟩
      (by decide)).2 rfl⟩

/-- C8: status normalization takes the enum name when available (else the
string form), strips the type-qualifier prefix, lower-cases, and maps
`completed`/`complete` to `complete` and `uploading` to `pending`, passing
every other label through verbatim: `status_text` agrees with the spec-side
`specStatusNormalize` on every raw name that is a bare label or a
`SubmissionStatus.`-qualified label. -/
theorem claim8_status_normalization (s : Rec) (v : Value) (base : String)
    (hv : get_attr s ["_status", "status"] (Value.vstr "") = v)
    (hshape : statusRawName v = "SubmissionStatus." ++ base ∨ statusRawName v = base)
    (hocc : hasOcc ("SubmissionStatus.").toList base.toList = false) :
    status_text s = specStatusNormalize (statusRawName v) ∧
    status_text s = canonStatus (pyLower base) := by
  have hrep : pyReplace (statusRawName v) "SubmissionStatus." = base := by
    rcases hshape with h | h
    · rw [h]
      unfold pyReplace
      show String.mk (replaceAux ("SubmissionStatus.").toList 0
        (("SubmissionStatus.").toList ++ base.toList)) = base
      rw [replaceAux_cancel (by decide) base.toList, replaceAux_no_occ hocc]
      rfl
    · rw [h]
      unfold pyReplace
      rw [replaceAux_no_occ hocc]
      rfl
  have hstrip : stripQualifier (statusRawName v) = base := by
    rcases hshape with h | h
    · rw [h]
      unfold stripQualifier
      rw [if_pos]
      · show String.mk ((("SubmissionStatus.").toList ++ base.toList).drop
          ("SubmissionStatus.").toList.length) = base
        rw [List.drop_left]
        rfl
      · show ("SubmissionStatus.").toList.isPrefixOf
          (("SubmissionStatus.").toList ++ base.toList) = true
        exact isPrefixOf_append _ _
    · rw [h]
      unfold stripQualifier
      rw [if_neg]
      intro hpre
      rw [hasOcc_isPrefixOf hpre] at hocc
      exact Bool.noConfusion hocc
  have h2 : status_text s = canonStatus (pyLower base) := by
    unfold status_text
    rw [hv]
    simp only [hrep]
    rfl
  have h3 : specStatusNormalize (statusRawName v) = canonStatus (pyLower base) := by
    unfold specStatusNormalize
    rw [hstrip]
  exact ⟨h2.trans h3.symm, h2⟩

/-- C8 witness: the bare enum name `RUNNING` normalizes to `running`, in
agreement with the spec-side pipeline, and so survives verbatim. -/
theorem claim8_witness :
    get_attr [("status", Value.venum "RUNNING")] ["_status", "status"] (Value.vstr "") =
      Value.venum "RUNNING" ∧
    hasOcc ("SubmissionStatus.").toList ("RUNNING").toList = false ∧
    status_text [("status", Value.venum "RUNNING")] =
      specStatusNormalize (statusRawName (Value.venum "RUNNING")) ∧
    status_text [("status", Value.venum "RUNNING")] = canonStatus (pyLower "RUNNING") ∧
    status_text [("status", Value.venum "RUNNING")] = "running" :=
  ⟨by decide, by decide,
    (claim8_status_normalization [("status", Value.venum "RUNNING")]
      (Value.venum "RUNNING") "RUNNING" (by decide) (Or.inr rfl) (by decide)).1,
    (claim8_status_normalization [("status", Value.venum "RUNNING")]
      (Value.venum "RUNNING") "RUNNING" (by decide) (Or.inr rfl) (by decide)).2,
    by decide⟩

/-- C9: the delivery outcome oracle never influences the cycle: for any two
oracles, the resulting track map and the emitted notifications coincide
(only the recorded delivery outcomes can differ); and whenever an emission
attempt is made for a tracked id, the entry's `last_reported_status` is set
to its `last_seen_status`, regardless of the delivery oracle. -/
theorem claim9_delivery_isolated :
    (∀ (w c : String) (nf now : Int) (fetch : Option (List Rec)) (t : Track)
        (d₁ d₂ : Notif → Bool),
        (runCycle w c d₁ nf now fetch t).1 = (runCycle w c d₂ nf now fetch t).1 ∧
        (runCycle w c d₁ nf now fetch t).2.map Prod.fst =
          (runCycle w c d₂ nf now fetch t).2.map Prod.fst) ∧
    (∀ (w c : String) (d : Notif → Bool) (now : Int) (t : Track) (s : Rec)
        (info : Entry) (p : Notif × PostOutcome),
        tfind t (get_ref s) = some info →
        (reportRecord w c d now t s).2 = some p →
        (reportRecord w c d now t s).1 =
          tset t (get_ref s)
            ⟨info.submit_time, info.last_seen_status, some info.last_seen_status⟩) := by
  refine ⟨?_, ?_⟩
  · intro w c nf now fetch t d₁ d₂
    cases fetch with
    | none => exact ⟨rfl, rfl⟩
    | some subs => exact reportPhase_oracle w c d₁ d₂ now subs (trackPhase nf t subs)
  · intro w c d now t s info p hinfo hp
    by_cases h1 : get_ref s = -1
    · rw [reportRecord_neg w c d now t s h1] at hp
      simp at hp
    · by_cases h3 : info.last_reported_status = some info.last_seen_status
      · rw [reportRecord_skip w c d now t s info hinfo h3] at hp
        simp at hp
      · rw [reportRecord_emit w c d now t s info h1 hinfo h3]

/-- C9 witness: for a concrete changed submission an emission attempt is
made and the entry is marked reported even under a failing delivery oracle. -/
theorem claim9_witness :
    tfind [(5, ⟨10, "running", none⟩)] (get_ref [("ref", Value.vint 5)]) =
      some ⟨10, "running", none⟩ ∧
    (reportRecord "w" "c" (fun _ => false) 1000 [(5, ⟨10, "running", none⟩)]
        [("ref", Value.vint 5)]).2 =
      some (Notif.progress 5 "running" 16 "https://www.kaggle.com/competitions/c/submissions",
        PostOutcome.failedLogged) ∧
    (reportRecord "w" "c" (fun _ => false) 1000 [(5, ⟨10, "running", none⟩)]
        [("ref", Value.vint 5)]).1 =
      tset [(5, ⟨10, "running", none⟩)] (get_ref [("ref", Value.vint 5)])
        ⟨10, "running", some "running"⟩ :=
  ⟨by decide, by decide,
    claim9_delivery_isolated.2 "w" "c" (fun _ => false) 1000 [(5, ⟨10, "running", none⟩)]
      [("ref", Value.vint 5)] ⟨10, "running", none⟩
      (Notif.progress 5 "running" 16 "https://www.kaggle.com/competitions/c/submissions",
        PostOutcome.failedLogged)
      (by decide) (by decide)⟩

end KaggleWatch
